import Mathlib

/-!
Shallow embedding of `src/app/src/lib/stats/stats-store.ts` (the stats
store of the desktop application): the daily-stats eligibility check,
the report cycle, the launch-stat aggregation and the commit counter.

Modelling conventions:
* JavaScript numbers are modelled as exact rationals (`ℚ`) for the timing
  fields and as `Int` for epoch-millisecond timestamps.
* JavaScript division is total on numbers but yields a non-finite value
  (here: `NaN`, since the numerator is also reachable only as `0`) when the
  divisor is `0`; `jsDiv` returns `Option ℚ` with `none` standing for that
  non-finite result.
* `localStorage` holds `Option String` (a key either absent or a string);
  `parseInt(s, 10)` is modelled by `jsParseInt`, with `none` for `NaN`.
* The store collaborator (`StatsDatabase`, a Dexie database defined outside
  the analysed source) is modelled from the spec: the `launches` table is a
  list, and `dailyDimensions` holds at most one logical row, read as
  "the row, or null/undefined when absent".
* The spread of `undefined` in a JavaScript object literal contributes no
  keys, so the `commits` field of the assembled payload is `Option Nat`,
  `none` meaning the key is absent from the payload.
* Effects of a `reportStats` run (reads, the transport POST, mutations) are
  returned as an explicit trace so that "no store access / no transport
  call" claims are statable.
-/

/-- The URL stats are POSTed to (`StatsEndpoint` in the source). -/
def StatsEndpoint : String := "https://central.github.com/api/usage/desktop"

/-- The localStorage key under which the last report time is persisted. -/
def LastDailyStatsReportKey : String := "last-daily-stats-report"

/-- How often daily stats should be submitted (i.e., 24 hours), in ms. -/
def DailyStatsReportInterval : Int := 1000 * 60 * 60 * 24

/-- Numeric value of a decimal digit character. -/
def digitVal (c : Char) : Nat := c.toNat - '0'.toNat

/-- Fold a list of decimal digit characters into the number they denote. -/
def parseDigits (ds : List Char) (acc : Nat) : Nat :=
  ds.foldl (fun a c => 10 * a + digitVal c) acc

/-- The longest leading run of decimal digits, as a number; `none` when the
list does not start with a digit (`parseInt` would yield `NaN`). -/
def parseLeadingDigits (cs : List Char) : Option Nat :=
  let ds := cs.takeWhile Char.isDigit
  if ds.isEmpty then none else some (parseDigits ds 0)

/-- Model of JavaScript `parseInt(s, 10)`: skip leading whitespace, read an
optional sign, then the longest run of decimal digits; `none` models `NaN`
(no digit found). -/
def jsParseInt (s : String) : Option Int :=
  let cs := s.data.dropWhile Char.isWhitespace
  match cs with
  | [] => none
  | c :: rest =>
    if c = '-' then (parseLeadingDigits rest).map (fun n => -(n : Int))
    else if c = '+' then (parseLeadingDigits rest).map (fun n => (n : Int))
    else (parseLeadingDigits (c :: rest)).map (fun n => (n : Int))

/-- The `lastDate` computed by `shouldReportDailyStats` from the stored
value: `0` when the key is absent or the string empty, else `parseInt` of
the string with the `isNaN` guard mapping `NaN` back to `0`. -/
def lastDateOf (stored : Option String) : Int :=
  match stored with
  | none => 0
  | some s =>
    if s.length > 0 then
      match jsParseInt s with
      | none => 0
      | some n => n
    else 0

/-- `StatsStore.shouldReportDailyStats`: should the app report its daily
stats at time `now`, given the persisted last-report value? -/
def shouldReportDailyStats (now : Int) (stored : Option String) : Bool :=
  now - lastDateOf stored > DailyStatsReportInterval

/-- `ILaunchStats`: one row per application launch (timing in ms). -/
structure ILaunchStats where
  mainReadyTime : ℚ
  loadTime : ℚ
  rendererReadyTime : ℚ
deriving DecidableEq, Repr

/-- `IDailyDimensions`: the daily counters row. -/
structure IDailyDimensions where
  commits : Nat
deriving DecidableEq, Repr

/-- The persistent state a `StatsStore` works on: the `launches` table, the
(at most one) `dailyDimensions` row, and the localStorage slot for
`LastDailyStatsReportKey`. -/
structure StatsState where
  launches : List ILaunchStats
  dailyDimensions : Option IDailyDimensions
  lastReportValue : Option String
deriving DecidableEq, Repr

/-- JavaScript division: `none` models the non-finite result produced when
the divisor is `0` (here always `0 / 0 = NaN`). -/
def jsDiv (a b : ℚ) : Option ℚ := if b = 0 then none else some (a / b)

/-- Result of `getAverageLaunchStats` (`ILaunchStats` whose fields may be
the non-finite outcome of dividing by a zero launch count). -/
structure AverageLaunchStats where
  mainReadyTime : Option ℚ
  loadTime : Option ℚ
  rendererReadyTime : Option ℚ
deriving DecidableEq, Repr

/-- `StatsStore.getAverageLaunchStats`: reduce the launch rows to field-wise
totals starting from the zero record, then divide each total by the number
of launches. -/
def getAverageLaunchStats (launches : List ILaunchStats) : AverageLaunchStats :=
  let start : ILaunchStats := ⟨0, 0, 0⟩
  let totals := launches.foldl
    (fun running current =>
      ⟨running.mainReadyTime + current.mainReadyTime,
       running.loadTime + current.loadTime,
       running.rendererReadyTime + current.rendererReadyTime⟩)
    start
  ⟨jsDiv totals.mainReadyTime (launches.length : ℚ),
   jsDiv totals.loadTime (launches.length : ℚ),
   jsDiv totals.rendererReadyTime (launches.length : ℚ)⟩

/-- Modelled from the spec: the store collaborator exposes "read the single
DailyCounters row (or null)"; `db.dailyDimensions.limit(1).first()` yields
the row, or `undefined` when the table is empty (the source annotates the
result as non-null `IDailyDimensions`, but no row exists until the first
`recordCommit`). -/
def getDailyDimensions (s : StatsState) : Option IDailyDimensions :=
  s.dailyDimensions

/-- The assembled `DailyStats` payload. `commits = none` models the
`commits` key being absent (spreading `undefined` adds no keys). -/
structure DailyStats where
  version : String
  osVersion : String
  mainReadyTime : Option ℚ
  loadTime : Option ℚ
  rendererReadyTime : Option ℚ
  commits : Option Nat
deriving DecidableEq, Repr

/-- `StatsStore.getDailyStats`: version and OS string from the external
collaborators, spread of the launch averages and of the daily dimensions. -/
def getDailyStats (version osVersion : String) (s : StatsState) : DailyStats :=
  let launchStats := getAverageLaunchStats s.launches
  let dimensions := getDailyDimensions s
  ⟨version, osVersion,
   launchStats.mainReadyTime, launchStats.loadTime,
   launchStats.rendererReadyTime,
   dimensions.map IDailyDimensions.commits⟩

/-- One observable effect of a `reportStats` run. -/
inductive Effect where
  | getItem : String → Option String → Effect
  | launchesToArray : Effect
  | dimensionsFirst : Effect
  | transportPost : DailyStats → Effect
  | launchesClear : Effect
  | setItem : String → String → Effect
deriving DecidableEq, Repr

/-- Does the effect mutate persisted state? -/
def Effect.isMutation : Effect → Bool
  | Effect.launchesClear => true
  | Effect.setItem _ _ => true
  | _ => false

/-- `StatsStore.clearLaunchStats`: clear the stored launch stats. -/
def clearLaunchStats (s : StatsState) : StatsState :=
  ⟨[], s.dailyDimensions, s.lastReportValue⟩

/-- `StatsStore.recordLaunchStats`: append one launch row. -/
def recordLaunchStats (stats : ILaunchStats) (s : StatsState) : StatsState :=
  ⟨s.launches ++ [stats], s.dailyDimensions, s.lastReportValue⟩

/-- `StatsStore.reportStats`. `dev` and `testEnv` model `__DEV__` and
`process.env.TEST_ENV`; `now₀` and `now` are the two `Date.now()` samples
(the one taken inside `shouldReportDailyStats` and the one captured before
building the payload); `transportOk` tells whether `proxyRequest` resolves
or rejects — a rejection is caught and only logged, so the function is
total either way. Returns the final state together with the trace of
effects, in order. -/
def reportStats (dev testEnv transportOk : Bool) (now₀ now : Int)
    (version osVersion : String) (s : StatsState) : StatsState × List Effect :=
  if dev || testEnv then (s, [])
  else if ! shouldReportDailyStats now₀ s.lastReportValue then
    (s, [Effect.getItem LastDailyStatsReportKey s.lastReportValue])
  else
    let stats := getDailyStats version osVersion s
    if transportOk then
      (⟨[], s.dailyDimensions, some (toString now)⟩,
       [Effect.getItem LastDailyStatsReportKey s.lastReportValue,
        Effect.launchesToArray, Effect.dimensionsFirst,
        Effect.transportPost stats, Effect.launchesClear,
        Effect.setItem LastDailyStatsReportKey (toString now)])
    else
      (s, [Effect.getItem LastDailyStatsReportKey s.lastReportValue,
           Effect.launchesToArray, Effect.dimensionsFirst,
           Effect.transportPost stats])

/-- `StatsStore.recordCommit`: inside a read-write transaction, read the
daily dimensions row, then `put` a row whose `commits` is the previous
count plus one — updating the existing row by its identity, or creating
the row with `commits = 1` when none exists. Modelled from the spec for
the store collaborator: upsert by identity on the single logical row. -/
def recordCommit (s : StatsState) : StatsState :=
  match s.dailyDimensions with
  | some d => ⟨s.launches, some ⟨d.commits + 1⟩, s.lastReportValue⟩
  | none => ⟨s.launches, some ⟨1⟩, s.lastReportValue⟩

/-- The commit count currently persisted (`0` when no row exists). -/
def commitCount (s : StatsState) : Nat :=
  match s.dailyDimensions with
  | some d => d.commits
  | none => 0

/-- Field-wise sums of a list of launch rows. -/
def sumMainReadyTime (l : List ILaunchStats) : ℚ :=
  (l.map ILaunchStats.mainReadyTime).sum

def sumLoadTime (l : List ILaunchStats) : ℚ :=
  (l.map ILaunchStats.loadTime).sum

def sumRendererReadyTime (l : List ILaunchStats) : ℚ :=
  (l.map ILaunchStats.rendererReadyTime).sum

/-- Decimal digit characters of `n`, most significant first (reference
implementation used to reason about `Nat.repr`, which is what
`now.toString()` produces for the non-negative `Date.now()` values). -/
def natToDigits (n : Nat) : List Char :=
  if n < 10 then [Nat.digitChar n]
  else natToDigits (n / 10) ++ [Nat.digitChar (n % 10)]
decreasing_by exact Nat.div_lt_self (by omega) (by omega)

theorem digitVal_digitChar : ∀ d, d < 10 → digitVal (Nat.digitChar d) = d := by
  decide

theorem digitChar_isDigit : ∀ d, d < 10 →
    (Nat.digitChar d).isDigit = true ∧ (Nat.digitChar d).isWhitespace = false ∧
    Nat.digitChar d ≠ '-' ∧ Nat.digitChar d ≠ '+' := by
  decide

theorem natToDigits_ne_nil (n : Nat) : natToDigits n ≠ [] := by
  rw [natToDigits]
  split
  · simp
  · simp

theorem natToDigits_mem (n : Nat) :
    ∀ c ∈ natToDigits n, ∃ d, d < 10 ∧ c = Nat.digitChar d := by
  induction n using Nat.strong_induction_on with
  | _ n ih =>
    rw [natToDigits]
    split
    · intro c hc
      simp at hc
      exact ⟨n, by omega, hc⟩
    · intro c hc
      simp at hc
      rcases hc with hc | hc
      · exact ih (n / 10) (Nat.div_lt_self (by omega) (by omega)) c hc
      · exact ⟨n % 10, Nat.mod_lt _ (by omega), hc⟩

theorem parseDigits_append (xs : List Char) (c : Char) (acc : Nat) :
    parseDigits (xs ++ [c]) acc = 10 * parseDigits xs acc + digitVal c := by
  simp [parseDigits, List.foldl_append]

theorem parseDigits_natToDigits (n : Nat) : parseDigits (natToDigits n) 0 = n := by
  induction n using Nat.strong_induction_on with
  | _ n ih =>
    rw [natToDigits]
    split
    · simp [parseDigits]
      rw [digitVal_digitChar n (by omega)]
    · rw [parseDigits_append, ih (n / 10) (Nat.div_lt_self (by omega) (by omega)),
        digitVal_digitChar (n % 10) (Nat.mod_lt _ (by omega))]
      omega

theorem toDigitsCore_eq (fuel n : Nat) (ds : List Char) (h : n < fuel) :
    Nat.toDigitsCore 10 fuel n ds = natToDigits n ++ ds := by
  induction fuel generalizing n ds with
  | zero => omega
  | succ fuel ih =>
    rw [Nat.toDigitsCore, natToDigits]
    by_cases h10 : n < 10
    · have hz : n / 10 = 0 := Nat.div_eq_of_lt h10
      simp [hz, Nat.mod_eq_of_lt h10, h10]
    · have hne : n / 10 ≠ 0 := by omega
      simp only [hne, h10, if_false]
      rw [ih (n / 10) ((n % 10).digitChar :: ds) (by omega)]
      simp

theorem toDigits_eq (n : Nat) : Nat.toDigits 10 n = natToDigits n := by
  rw [Nat.toDigits, toDigitsCore_eq (n + 1) n [] (by omega)]
  simp

theorem repr_data (n : Nat) : (Nat.repr n).data = natToDigits n := by
  rw [Nat.repr, toDigits_eq]
  rfl

theorem takeWhile_of_all {p : Char → Bool} :
    ∀ l : List Char, (∀ c ∈ l, p c = true) → l.takeWhile p = l := by
  intro l h
  induction l with
  | nil => rfl
  | cons c l ih =>
    rw [List.takeWhile_cons]
    simp only [h c (by simp), if_true]
    exact congrArg (c :: ·) (ih (fun x hx => h x (by simp [hx])))

/-- Parsing back the decimal rendering of a natural number recovers it:
`parseInt(String(n), 10) === n`. -/
theorem jsParseInt_repr (n : Nat) : jsParseInt (Nat.repr n) = some (n : Int) := by
  obtain ⟨c, rest, hcr⟩ : ∃ c rest, natToDigits n = c :: rest := by
    cases hnd : natToDigits n with
    | nil => exact absurd hnd (natToDigits_ne_nil n)
    | cons c rest => exact ⟨c, rest, rfl⟩
  have hprops : ∀ x ∈ natToDigits n, x.isDigit = true ∧ x.isWhitespace = false ∧
      x ≠ '-' ∧ x ≠ '+' := by
    intro x hx
    obtain ⟨d, hd, rfl⟩ := natToDigits_mem n x hx
    exact digitChar_isDigit d hd
  have hc := hprops c (by rw [hcr]; simp)
  have htake : (c :: rest).takeWhile Char.isDigit = c :: rest := by
    rw [← hcr]
    exact takeWhile_of_all _ (fun x hx => (hprops x hx).1)
  simp only [jsParseInt, repr_data, hcr, List.dropWhile_cons, hc.2.1, if_false,
    Bool.false_eq_true, hc.2.2.1, hc.2.2.2, parseLeadingDigits, htake]
  simp only [List.isEmpty_cons, if_false, Bool.false_eq_true, Option.map_some]
  rw [← hcr, parseDigits_natToDigits]
  simp

theorem length_repr_pos (n : Nat) : (Nat.repr n).length > 0 := by
  show (Nat.repr n).data.length > 0
  rw [repr_data]
  cases hnd : natToDigits n with
  | nil => exact absurd hnd (natToDigits_ne_nil n)
  | cons c rest => simp

/-- Persisting `now.toString()` and reading it back through the
`parseInt`-with-`isNaN`-guard path yields `now` again, for the
non-negative timestamps `Date.now()` produces. -/
theorem lastDateOf_toString (now : Int) (h : 0 ≤ now) :
    lastDateOf (some (toString now)) = now := by
  obtain ⟨m, rfl⟩ := Int.eq_ofNat_of_zero_le h
  have hts : toString ((m : Nat) : Int) = Nat.repr m := rfl
  rw [hts, lastDateOf]
  simp [length_repr_pos m, jsParseInt_repr m]

example : shouldReportDailyStats 86400001 none = true := by decide
example : shouldReportDailyStats 86400000 none = false := by decide
example : shouldReportDailyStats 86400000 (some "0") = false := by decide
example : jsParseInt "corrupt" = none := by decide
example : jsParseInt "  -42" = some (-42) := by decide
example : jsParseInt "12abc" = some 12 := by decide
example : toString (86400001 : Int) = "86400001" := by decide
example : getAverageLaunchStats [⟨100, 200, 50⟩, ⟨200, 300, 70⟩, ⟨300, 400, 90⟩]
    = ⟨some 200, some 300, some 70⟩ := by
  simp [getAverageLaunchStats, jsDiv]
  norm_num

theorem commitCount_recordCommit (s : StatsState) :
    commitCount (recordCommit s) = commitCount s + 1 := by
  cases hd : s.dailyDimensions <;> simp [recordCommit, commitCount, hd]

theorem commitCount_iterate (s : StatsState) (K : Nat) :
    commitCount (recordCommit^[K] s) = commitCount s + K := by
  induction K with
  | zero => simp
  | succ K ih =>
    rw [Function.iterate_succ_apply', commitCount_recordCommit, ih]
    omega

/-- On the eligible, transport-success path `reportStats` ends in the state
with an empty launches table, untouched daily dimensions, and the captured
`now` rendered into the localStorage slot. -/
theorem reportStats_success_eq (now₀ now : Int) (version osVersion : String)
    (s : StatsState)
    (helig : shouldReportDailyStats now₀ s.lastReportValue = true) :
    reportStats false false true now₀ now version osVersion s =
      (⟨[], s.dailyDimensions, some (toString now)⟩,
       [Effect.getItem LastDailyStatsReportKey s.lastReportValue,
        Effect.launchesToArray, Effect.dimensionsFirst,
        Effect.transportPost (getDailyStats version osVersion s),
        Effect.launchesClear,
        Effect.setItem LastDailyStatsReportKey (toString now)]) := by
  unfold reportStats
  simp [helig]

/-- C3: the eligibility check returns true iff `now` minus the persisted
last-report value exceeds the fixed 24-hour interval (86,400,000 ms); an
absent or zero persisted value is treated as 0, so a first-ever call is
eligible for every `now` greater than the interval past epoch 0. -/
theorem shouldReport_iff_interval_elapsed :
    DailyStatsReportInterval = 86400000 ∧
    (∀ (now : Int) (stored : Option String),
      shouldReportDailyStats now stored = true ↔
        DailyStatsReportInterval < now - lastDateOf stored) ∧
    lastDateOf none = 0 ∧ lastDateOf (some "0") = 0 ∧
    (∀ now : Int, DailyStatsReportInterval < now →
      shouldReportDailyStats now none = true) := by
  refine ⟨by decide, fun now stored => ?_, rfl, by decide, fun now h => ?_⟩
  · simp [shouldReportDailyStats]
  · simp only [shouldReportDailyStats, lastDateOf]
    simp only [decide_eq_true_eq]
    omega

/-- Witness for C3 at a concrete first-ever call one millisecond past the
interval. -/
theorem shouldReport_iff_interval_elapsed_witness :
    shouldReportDailyStats 86400001 none = true :=
  shouldReport_iff_interval_elapsed.2.2.2.2 86400001 (by decide)

/-- C5: starting with no DailyCounters row, K sequential `recordCommit`
calls leave the commits counter at K; a single call creates the row with
commits = 1; and every call writes previous count (default 0) plus one. -/
theorem recordCommit_count (s : StatsState) (K : Nat)
    (h : s.dailyDimensions = none) :
    commitCount (recordCommit^[K] s) = K ∧
    (recordCommit s).dailyDimensions = some ⟨1⟩ ∧
    (∀ t : StatsState, (recordCommit t).dailyDimensions
      = some ⟨commitCount t + 1⟩) := by
  refine ⟨?_, by simp [recordCommit, h], fun t => ?_⟩
  · rw [commitCount_iterate]
    simp [commitCount, h]
  · cases hd : t.dailyDimensions <;> simp [recordCommit, commitCount, hd]

/-- Witness for C5: three commits recorded on an empty store. -/
theorem recordCommit_count_witness :
    commitCount (recordCommit^[3] ⟨[], none, none⟩) = 3 :=
  (recordCommit_count ⟨[], none, none⟩ 3 rfl).1

/-- C6: with the dev/test flag set, `reportStats` is a no-op with zero side
effects — the state is unchanged and the effect trace is empty, so no
eligibility check, no store access and no transport call occurred. -/
theorem reportStats_dev_noop (dev testEnv transportOk : Bool) (now₀ now : Int)
    (version osVersion : String) (s : StatsState)
    (h : (dev || testEnv) = true) :
    reportStats dev testEnv transportOk now₀ now version osVersion s = (s, []) := by
  simp [reportStats, h]

/-- Witness for C6: concrete dev-mode call on a populated store. -/
theorem reportStats_dev_noop_witness :
    reportStats true false true 86400001 86400001 "1.0.0" "os"
      ⟨[⟨1, 2, 3⟩], some ⟨5⟩, none⟩ = (⟨[⟨1, 2, 3⟩], some ⟨5⟩, none⟩, []) :=
  reportStats_dev_noop true false true 86400001 86400001 "1.0.0" "os"
    ⟨[⟨1, 2, 3⟩], some ⟨5⟩, none⟩ rfl

/-- C2: when the transport rejects, `reportStats` leaves the state exactly
as it was, its effect trace contains no mutating effect, and — being a
total function, the rejection caught by the try/catch — it propagates no
exception to the caller. -/
theorem reportStats_failure_frame (dev testEnv : Bool) (now₀ now : Int)
    (version osVersion : String) (s : StatsState) :
    (reportStats dev testEnv false now₀ now version osVersion s).1 = s ∧
    (reportStats dev testEnv false now₀ now version osVersion s).2.all
      (fun e => ! e.isMutation) = true := by
  unfold reportStats
  split
  · simp
  · split
    · simp [Effect.isMutation]
    · simp [Effect.isMutation]

/-- C10: a persisted string from which `parseInt` extracts no number (NaN)
is treated as 0 — the same eligibility as with no prior report — and the
check is a total function, never an error. -/
theorem corrupt_timestamp_treated_as_zero (s : String)
    (h : jsParseInt s = none) :
    lastDateOf (some s) = 0 ∧
    (∀ now : Int, shouldReportDailyStats now (some s)
      = shouldReportDailyStats now none) := by
  have h0 : lastDateOf (some s) = 0 := by
    rw [lastDateOf]
    split
    · simp [h]
    · rfl
  exact ⟨h0, fun now => by simp [shouldReportDailyStats, lastDateOf, h]⟩

/-- Witness for C10 on a concrete corrupt value. -/
theorem corrupt_timestamp_treated_as_zero_witness :
    lastDateOf (some "corrupt") = 0 :=
  (corrupt_timestamp_treated_as_zero "corrupt" (by decide)).1

/-- C1: after a `reportStats` call on the non-dev, eligible path in which
the transport submission succeeds, the stored LaunchRecords are empty, the
persisted last-report value reads back as the `now` captured by the call,
and the DailyCounters row is unchanged. -/
theorem reportStats_success_frame (now₀ now : Int) (version osVersion : String)
    (s : StatsState)
    (helig : shouldReportDailyStats now₀ s.lastReportValue = true)
    (hnow : 0 ≤ now) :
    (reportStats false false true now₀ now version osVersion s).1.launches = [] ∧
    (reportStats false false true now₀ now version osVersion s).1.lastReportValue
      = some (toString now) ∧
    lastDateOf
      (reportStats false false true now₀ now version osVersion s).1.lastReportValue
      = now ∧
    (reportStats false false true now₀ now version osVersion s).1.dailyDimensions
      = s.dailyDimensions := by
  rw [reportStats_success_eq now₀ now version osVersion s helig]
  exact ⟨rfl, rfl, lastDateOf_toString now hnow, rfl⟩

/-- Witness for C1: a concrete eligible call with a succeeding transport. -/
theorem reportStats_success_frame_witness :
    (reportStats false false true 86400001 86400001 "1.0.0" "os"
      ⟨[⟨1, 2, 3⟩], some ⟨5⟩, none⟩).1.launches = [] ∧
    lastDateOf (reportStats false false true 86400001 86400001 "1.0.0" "os"
      ⟨[⟨1, 2, 3⟩], some ⟨5⟩, none⟩).1.lastReportValue = 86400001 ∧
    (reportStats false false true 86400001 86400001 "1.0.0" "os"
      ⟨[⟨1, 2, 3⟩], some ⟨5⟩, none⟩).1.dailyDimensions = some ⟨5⟩ :=
  have t := reportStats_success_frame 86400001 86400001 "1.0.0" "os"
    ⟨[⟨1, 2, 3⟩], some ⟨5⟩, none⟩ (by decide) (by decide)
  ⟨t.1, t.2.2.1, t.2.2.2⟩

theorem foldl_totals (l : List ILaunchStats) (a : ILaunchStats) :
    l.foldl (fun running current =>
      (⟨running.mainReadyTime + current.mainReadyTime,
        running.loadTime + current.loadTime,
        running.rendererReadyTime + current.rendererReadyTime⟩ : ILaunchStats)) a
    = ⟨a.mainReadyTime + sumMainReadyTime l, a.loadTime + sumLoadTime l,
       a.rendererReadyTime + sumRendererReadyTime l⟩ := by
  induction l generalizing a with
  | nil => simp [sumMainReadyTime, sumLoadTime, sumRendererReadyTime]
  | cons x l ih =>
    rw [List.foldl_cons, ih]
    simp only [sumMainReadyTime, sumLoadTime, sumRendererReadyTime, List.map_cons,
      List.sum_cons, ILaunchStats.mk.injEq]
    exact ⟨by ring, by ring, by ring⟩

/-- C4: for a non-empty list of launch records the aggregation yields, for
each timing field, exactly the arithmetic mean (field sum divided by the
record count); for a single record it yields that record's values, and on
the three concrete records it yields 200 / 300 / 70. -/
theorem averageLaunchStats_mean (l : List ILaunchStats) (h : l ≠ []) :
    getAverageLaunchStats l =
      ⟨some (sumMainReadyTime l / (l.length : ℚ)),
       some (sumLoadTime l / (l.length : ℚ)),
       some (sumRendererReadyTime l / (l.length : ℚ))⟩ ∧
    (∀ r : ILaunchStats, getAverageLaunchStats [r]
      = ⟨some r.mainReadyTime, some r.loadTime, some r.rendererReadyTime⟩) ∧
    getAverageLaunchStats [⟨100, 200, 50⟩, ⟨200, 300, 70⟩, ⟨300, 400, 90⟩]
      = ⟨some 200, some 300, some 70⟩ := by
  have main : ∀ m : List ILaunchStats, m ≠ [] → getAverageLaunchStats m =
      ⟨some (sumMainReadyTime m / (m.length : ℚ)),
       some (sumLoadTime m / (m.length : ℚ)),
       some (sumRendererReadyTime m / (m.length : ℚ))⟩ := by
    intro m hm
    have hlen : (m.length : ℚ) ≠ 0 := by
      simpa using fun hc => hm (List.length_eq_zero.mp hc)
    simp only [getAverageLaunchStats, foldl_totals, jsDiv, hlen, if_false, zero_add]
  refine ⟨main l h, fun r => ?_, ?_⟩
  · rw [main [r] (by simp)]
    simp [sumMainReadyTime, sumLoadTime, sumRendererReadyTime]
  · rw [main _ (by simp)]
    simp only [sumMainReadyTime, sumLoadTime, sumRendererReadyTime]
    norm_num

/-- Witness for C4: the mean of a single record is that record. -/
theorem averageLaunchStats_mean_witness :
    getAverageLaunchStats [⟨1, 2, 3⟩] = ⟨some 1, some 2, some 3⟩ :=
  (averageLaunchStats_mean [⟨1, 2, 3⟩] (by simp)).2.1 ⟨1, 2, 3⟩

/-- C9 fails as stated: with a persisted last-report value of 0 the claimed
threshold is 0 + ReportInterval = 86,400,000 and the claim asserts the
check returns true at or above that threshold, but the code's strict
inequality returns false at exactly 86,400,000. -/
theorem shouldReport_threshold_counterexample :
    lastDateOf (some "0") + DailyStatsReportInterval = 86400000 ∧
    shouldReportDailyStats 86400000 (some "0") = false := by
  constructor
  · decide
  · decide

/-- C9 (amended): for every fixed persisted value the eligibility check is
monotone in `now` with exactly one threshold, equal to
lastReportTimestamp + ReportInterval + 1 (one past the claimed value, since
the comparison is strict), below which it returns false and at or above
which it returns true; after a successful report at time `now`, a call at
`now + 1` is never eligible and a call at `now + ReportInterval + 1` is
eligible. -/
theorem shouldReport_threshold :
    (∀ (stored : Option String) (now : Int),
      shouldReportDailyStats now stored = true ↔
        lastDateOf stored + DailyStatsReportInterval + 1 ≤ now) ∧
    (∀ (stored : Option String) (n1 n2 : Int), n1 ≤ n2 →
      shouldReportDailyStats n1 stored = true →
      shouldReportDailyStats n2 stored = true) ∧
    (∀ (now₀ now : Int) (version osVersion : String) (s : StatsState),
      0 ≤ now →
      shouldReportDailyStats now₀ s.lastReportValue = true →
      shouldReportDailyStats (now + 1)
        (reportStats false false true now₀ now version osVersion
          s).1.lastReportValue = false ∧
      shouldReportDailyStats (now + DailyStatsReportInterval + 1)
        (reportStats false false true now₀ now version osVersion
          s).1.lastReportValue = true) := by
  have hiff : ∀ (stored : Option String) (now : Int),
      shouldReportDailyStats now stored = true ↔
        lastDateOf stored + DailyStatsReportInterval + 1 ≤ now := by
    intro stored now
    simp only [shouldReportDailyStats, decide_eq_true_eq]
    omega
  refine ⟨hiff, fun stored n1 n2 hle h1 => ?_, fun now₀ now v ov s hnow helig => ?_⟩
  · rw [hiff] at h1 ⊢
    omega
  · rw [reportStats_success_eq now₀ now v ov s helig]
    have hld : lastDateOf (some (toString now)) = now := lastDateOf_toString now hnow
    have hI : DailyStatsReportInterval = 86400000 := by decide
    constructor
    · show shouldReportDailyStats (now + 1) (some (toString now)) = false
      rw [← Bool.not_eq_true, hiff, hld, hI]
      omega
    · show shouldReportDailyStats (now + DailyStatsReportInterval + 1)
        (some (toString now)) = true
      rw [hiff, hld, hI]

/-- Witness for C9 (amended) at concrete inputs: threshold behaviour around
a persisted value of 0 and a concrete successful report. -/
theorem shouldReport_threshold_witness :
    shouldReportDailyStats 86400001 (some "0") = true ∧
    shouldReportDailyStats (86400001 + 1)
      (reportStats false false true 86400001 86400001 "1.0.0" "os"
        ⟨[], none, none⟩).1.lastReportValue = false :=
  ⟨(shouldReport_threshold.1 (some "0") 86400001).mpr (by decide),
   (shouldReport_threshold.2.2 86400001 86400001 "1.0.0" "os"
      ⟨[], none, none⟩ (by decide) (by decide)).1⟩

/-- C7 fails as stated: with zero LaunchRecords the aggregation divides the
zero totals by the zero record count unguarded — each average is
`jsDiv 0 0`, whose zero-divisor branch (JS `0/0 = NaN`) is taken — and the
case is reachable: an eligible report on an empty launches table still
POSTs a payload carrying those non-finite timing fields. -/
theorem emptyLaunch_division_counterexample :
    (getAverageLaunchStats []).mainReadyTime = jsDiv 0 0 ∧
    jsDiv 0 0 = none ∧
    (reportStats false false true 86400001 86400001 "1.0.0" "os"
      ⟨[], some ⟨5⟩, none⟩).2.contains
      (Effect.transportPost ⟨"1.0.0", "os", none, none, none, some 5⟩) = true := by
  refine ⟨by simp [getAverageLaunchStats, jsDiv], by simp [jsDiv], ?_⟩
  rw [reportStats_success_eq 86400001 86400001 "1.0.0" "os"
    ⟨[], some ⟨5⟩, none⟩ (by decide)]
  have hpay : getDailyStats "1.0.0" "os" ⟨[], some ⟨5⟩, none⟩
      = ⟨"1.0.0", "os", none, none, none, some 5⟩ := by
    simp [getDailyStats, getAverageLaunchStats, getDailyDimensions, jsDiv]
  rw [hpay]
  simp

/-- C7 (amended): when zero LaunchRecords exist the aggregation performs
the unguarded divisions `0 / 0`; deterministically, every timing field of
the result is the non-finite JS value (modelled `none`). -/
theorem emptyLaunch_division (l : List ILaunchStats) (h : l = []) :
    getAverageLaunchStats l = ⟨jsDiv 0 0, jsDiv 0 0, jsDiv 0 0⟩ ∧
    getAverageLaunchStats l = ⟨none, none, none⟩ := by
  subst h
  constructor <;> simp [getAverageLaunchStats, jsDiv]

/-- Witness for C7 (amended) at the empty list. -/
theorem emptyLaunch_division_witness :
    getAverageLaunchStats [] = ⟨none, none, none⟩ :=
  (emptyLaunch_division [] rfl).2

/-- C8 evaluation: with no DailyCounters row the spread of the `undefined`
read contributes no keys, so the payload's `commits` key is absent
(`none`), not `0` as the claim requires; with a row present the count is
passed through unchanged. -/
theorem dailyStats_commits_key :
    (getDailyStats "1.0.0" "os" ⟨[⟨1, 2, 3⟩], none, none⟩).commits = none ∧
    (getDailyStats "1.0.0" "os" ⟨[⟨1, 2, 3⟩], some ⟨5⟩, none⟩).commits = some 5 ∧
    (∀ (v ov : String) (st : StatsState),
      (getDailyStats v ov st).commits = st.dailyDimensions.map IDailyDimensions.commits) :=
  ⟨rfl, rfl, fun _ _ _ => rfl⟩
